import Mathlib

/-!
A shallow embedding of the snpit SNP-based lineage resolution engine
(src/snpit/core.py) together with theorems checking the natural-language
specification against it.

Modelling conventions:
* Python dictionaries mapping genome position to a base are association
  lists (`SnpMap`); dictionary subscript access that can raise KeyError is
  modelled with `Except`, as are ZeroDivisionError, IndexError, and the
  TypeError raised by indexing the plain `self.lineages` list with a
  Lineage record in `determine_lineage`.
* Python floats are modelled as exact rationals; every arithmetic fact
  proved here is robust to that choice (only `/`, `*`, `>` on the
  percentage values are used by the code).
* The dictionaries `self.reference_snps` and `self.sample_snps` are keyed
  by the Lineage records themselves; they are modelled as total functions
  from `Lineage`, updated with `dictUpdate`, which uses the Python
  equality of Lineage records (name and lineage label only).
* `sorted(..., key=itemgetter(1), reverse=True)` is a stable sort,
  descending by the percentage component; it is modelled by the stable
  insertion sort `sortResults` (a stable sort is extensionally unique, so
  any stable sort models the Python one).
* The external collaborators (the Biopython genome sequence and the fasta
  sequence) are modelled as total functions from 0-based offset to the
  one-character string found there.
-/

/-- One row of the lineage catalog (snpit/lineage.py is not under src;
the record fields are fixed by spec section 3 and by tests/test_lineage.py). -/
structure Lineage where
  name : String
  species : String
  lineage : String
  sublineage : String
deriving Repr, DecidableEq

/-- Modelled from the spec: equality of two Lineage records compares only
`name` and `lineage` (spec section 3, "Equality: two Lineage records are
equal iff name and lineage match"; snpit/lineage.py is not under src, its
equality is fixed by tests/test_lineage.py). Used wherever a Python
dictionary is keyed by Lineage records. -/
def Lineage.pyEq (a b : Lineage) : Bool :=
  a.name == b.name && a.lineage == b.lineage

/-- The Python runtime errors the code under src can raise
(ZeroDivisionError from the unguarded division, IndexError and KeyError
from subscripts, TypeError from indexing the plain `self.lineages` list
with a Lineage object), plus the distinct `invalidAlleleIndex` error that
only the specification names (section 7); no code under src produces the
latter, it exists so that the spec-modelled interpreter can be compared
with the real one. -/
inductive PyError where
  | zeroDivisionError
  | indexError
  | keyError
  | typeError
  | invalidAlleleIndex
deriving Repr, DecidableEq

def exceptDecEq {ε α : Type} [DecidableEq ε] [DecidableEq α] : DecidableEq (Except ε α)
  | Except.ok a, Except.ok b =>
      if h : a = b then isTrue (by rw [h]) else isFalse (by intro hc; cases hc; exact h rfl)
  | Except.ok _, Except.error _ => isFalse (by intro hc; cases hc)
  | Except.error _, Except.ok _ => isFalse (by intro hc; cases hc)
  | Except.error a, Except.error b =>
      if h : a = b then isTrue (by rw [h]) else isFalse (by intro hc; cases hc; exact h rfl)

instance {ε α : Type} [DecidableEq ε] [DecidableEq α] : DecidableEq (Except ε α) := exceptDecEq

/-- A Python dict from genome position to a base string: an insertion
ordered association list with unique keys. -/
abbrev SnpMap := List (Nat × String)

/-- Dictionary lookup, `d.get(p)` style: first entry with the given key. -/
def snpFind : SnpMap → Nat → Option String
  | [], _ => none
  | (q, w) :: rest, p => if q = p then some w else snpFind rest p

/-- Dictionary assignment `d[p] = v`: overwrite in place, or append a new
entry at the end, exactly as a Python dict keeps insertion order. -/
def snpInsert : SnpMap → Nat → String → SnpMap
  | [], p, v => [(p, v)]
  | (q, w) :: rest, p, v =>
      if q = p then (q, v) :: rest else (q, w) :: snpInsert rest p v

/-- Assignment into a dictionary keyed by Lineage records, modelled as a
function update keyed by the Python equality of Lineage records. -/
def dictUpdate (d : Lineage → SnpMap) (k : Lineage) (v : SnpMap) : Lineage → SnpMap :=
  fun L => if Lineage.pyEq L k then v else d L

/-- Modelled from the spec: the Genotype call variants (snpit/genotype.py
is not under src; spec section 3 fixes the four variants, the alternate
variant carrying the allele index parsed from the genotype string, so a
natural number). `Genotype.call()[0]` of the source is the carried index. -/
inductive Genotype where
  | reference
  | heterozygous
  | null
  | alternate (k : Nat)
deriving Repr, DecidableEq

/-- One VCF record as the code under src consumes it: genome position
(`record.POS`), the truthiness of `record.FILTER`, the alternate allele
list (`record.ALT`), and the per-sample genotype calls, already classified
by `Genotype.from_string` (which is not under src). -/
structure VcfRecord where
  pos : Nat
  filter : Bool
  alt : List String
  samples : List Genotype
deriving Repr, DecidableEq

/-- Python list subscript `l[i]`: a negative index wraps once from the
end, and anything still out of range raises IndexError. -/
def pyListGet (l : List String) (i : Int) : Except PyError String :=
  let j : Int := if i < 0 then i + l.length else i
  if h : 0 ≤ j ∧ j.toNat < l.length then Except.ok (l.get ⟨j.toNat, h.2⟩)
  else Except.error PyError.indexError

/-- Embeds `snpit.get_sample_genotyped_variant` (core.py lines 118-138):
reference or heterozygous gives None, null gives the placeholder "-", and
an alternate call with index k reads `record.ALT[k - 1]` with a bare
Python list subscript. -/
def get_sample_genotyped_variant (genotype : Genotype) (record : VcfRecord) :
    Except PyError (Option String) :=
  match genotype with
  | Genotype.reference => Except.ok none
  | Genotype.heterozygous => Except.ok none
  | Genotype.null => Except.ok (some "-")
  | Genotype.alternate k => (pyListGet record.alt ((k : Int) - 1)).map (fun v => some v)

/-- Modelled from the spec: the genotype interpreter as spec sections 4.1
and 7 describe it, identical to the source function except that an
out-of-range allele index fails with the distinct `InvalidAlleleIndex`
error. Written only to be compared against `get_sample_genotyped_variant`. -/
def getSampleGenotypedVariantSpec (genotype : Genotype) (record : VcfRecord) :
    Except PyError (Option String) :=
  match genotype with
  | Genotype.reference => Except.ok none
  | Genotype.heterozygous => Except.ok none
  | Genotype.null => Except.ok (some "-")
  | Genotype.alternate k =>
      match record.alt.get? (k - 1) with
      | some v => Except.ok (some v)
      | none => Except.error PyError.invalidAlleleIndex

/-- The loop body counts of `determine_lineage` (core.py lines 225-235):
walking the keys of the reference panel in order, count the positions
where the reference panel value equals the sample projection value
(`shared`) and the total number of positions (`ref`). A key missing from
either dictionary raises KeyError, exactly like the Python subscripts. -/
def countShared (refm samp : SnpMap) : List (Nat × String) → Except PyError (Nat × Nat)
  | [] => Except.ok (0, 0)
  | (j, _) :: rest => do
      let refBase ← (match snpFind refm j with
        | some b => Except.ok b
        | none => Except.error PyError.keyError)
      let sampBase ← (match snpFind samp j with
        | some b => Except.ok b
        | none => Except.error PyError.keyError)
      let sr ← countShared refm samp rest
      Except.ok (if refBase = sampBase then sr.1 + 1 else sr.1, sr.2 + 1)

/-- The per-lineage percentage of `determine_lineage` (core.py line 238):
`(shared / ref) * 100`, raising ZeroDivisionError when the panel is empty,
exactly as the unguarded Python division does. -/
def lineagePercentage (refm samp : SnpMap) : Except PyError ℚ := do
  let sr ← countShared refm samp refm
  if sr.2 = 0 then Except.error PyError.zeroDivisionError
  else Except.ok (((sr.1 : ℚ) / (sr.2 : ℚ)) * 100)

/-- Assignment `d[K] = p` into the `self.percentage` dictionary, which is
keyed by Lineage records: a Python-equal key already present keeps its
original key object and insertion position and only its value is
overwritten; a new key is appended. -/
def pctInsert : List (Lineage × ℚ) → Lineage → ℚ → List (Lineage × ℚ)
  | [], K, p => [(K, p)]
  | (L, q) :: rest, K, p =>
      if Lineage.pyEq L K then (L, p) :: rest else (L, q) :: pctInsert rest K p

/-- The `self.percentage` dictionary of `determine_lineage` (core.py lines
218-238) after the loop over the catalog, as its insertion-ordered item
list: one entry per distinct (by Python equality) catalog row, a repeated
row overwriting the value at its existing entry as a dict assignment does. -/
def determine_percentages (lineages : List Lineage) (refSnps sampSnps : Lineage → SnpMap) :
    Except PyError (List (Lineage × ℚ)) :=
  lineages.foldlM
    (fun pcts L =>
      (lineagePercentage (refSnps L) (sampSnps L)).map (fun p => pctInsert pcts L p))
    []

/-- Insert one entry into a list already sorted by descending percentage,
after every strictly larger entry and before every equal or smaller one. -/
def insertDesc (x : Lineage × ℚ) : List (Lineage × ℚ) → List (Lineage × ℚ)
  | [] => [x]
  | y :: ys => if y.2 > x.2 then y :: insertDesc x ys else x :: y :: ys

/-- Embeds `sorted(self.percentage.items(), key=itemgetter(1),
reverse=True)` (core.py lines 241-243): the stable sort by descending
percentage, realized as a stable insertion sort. -/
def sortResults : List (Lineage × ℚ) → List (Lineage × ℚ)
  | [] => []
  | x :: xs => insertDesc x (sortResults xs)

/-- Embeds core.py lines 245-279: read `self.results[0]` (IndexError on
an empty results list) and compare against the threshold. When the top
percentage strictly exceeds the threshold, the next evaluated expression
is `self.lineages[identified_lineage_name]["lineage"]` on line 253; but
`self.lineages` is the plain Python list built by
`load_lineages_from_csv` (core.py lines 42 and 282-290) and
`identified_lineage_name` is a Lineage record (a key of the
`self.percentage` dict), so that subscript raises TypeError before the
Lineage 4 lookahead, before `self.results[1]` and before any tuple is
returned. Only the unknown branch (line 279) completes, returning the
all-None tuple without touching `self.lineages`. -/
def pickLineage (threshold : ℚ) (results : List (Lineage × ℚ)) :
    Except PyError (Option (String × String × String × ℚ)) :=
  match results with
  | [] => Except.error PyError.indexError
  | (_, idPct) :: _ =>
    if idPct > threshold then Except.error PyError.typeError
    else Except.ok none

/-- The state an snpit object carries into `determine_lineage`. -/
structure SnpitState where
  threshold : ℚ
  lineages : List Lineage
  reference_snps : Lineage → SnpMap
  sample_snps : Lineage → SnpMap

/-- Embeds `snpit.determine_lineage` (core.py lines 208-279): compute the
percentage of matching panel positions for every cataloged lineage, rank
by descending percentage, and pick the winner or the all-None tuple
(modelled as `none`). -/
def determine_lineage (st : SnpitState) :
    Except PyError (Option (String × String × String × ℚ)) :=
  (determine_percentages st.lineages st.reference_snps st.sample_snps).bind
    (fun pcts => pickLineage st.threshold (sortResults pcts))

/-- The inner dictionary built by `_reset_lineage_snps` for one lineage
(core.py lines 197-206): one entry per reference panel position, holding
the genome sequence character at the 0-based offset position minus one. -/
def buildRefProjection (panel : SnpMap) (seqf : Nat → String) : SnpMap :=
  panel.foldl (fun m pr => snpInsert m pr.1 (seqf (pr.1 - 1))) []

/-- The inner dictionary built by `load_fasta` for one lineage (core.py
lines 163-173), including the always-true membership test of line 167. -/
def buildFastaProjection (panel : SnpMap) (seqf : Nat → String) : SnpMap :=
  panel.foldl
    (fun m pr =>
      if (snpFind panel pr.1).isSome then snpInsert m pr.1 (seqf (pr.1 - 1)) else m)
    []

/-- Embeds `snpit._reset_lineage_snps` (core.py lines 175-206): seed every
lineage projection with the reference genome base at each panel position. -/
def _reset_lineage_snps (genome : Nat → String) (lineages : List Lineage)
    (refSnps : Lineage → SnpMap) : Lineage → SnpMap :=
  lineages.foldl
    (fun samp L => dictUpdate samp L (buildRefProjection (refSnps L) genome))
    (fun _ => [])

/-- Embeds `snpit.load_fasta` (core.py lines 140-173): reset the
projections from the reference genome, then rebuild them from scratch out
of the fasta sequence. The reset result is discarded by the
`self.sample_snps = {}` on line 152, as in the source. -/
def load_fasta (genome fseq : Nat → String) (lineages : List Lineage)
    (refSnps : Lineage → SnpMap) : Lineage → SnpMap :=
  let _discarded := _reset_lineage_snps genome lineages refSnps
  lineages.foldl
    (fun samp L => dictUpdate samp L (buildFastaProjection (refSnps L) fseq))
    (fun _ => [])

/-- The per-sample inner loop of `lineage_classify_position` (core.py
lines 111-116): interpret each genotype of the record and overwrite the
projection entry at the record position for each informative outcome. -/
def process_samples (record : VcfRecord) : List Genotype → SnpMap → Except PyError SnpMap
  | [], m => Except.ok m
  | g :: rest, m => do
      let variant ← get_sample_genotyped_variant g record
      match variant with
      | some v => process_samples record rest (snpInsert m record.pos v)
      | none => process_samples record rest m

/-- Embeds `snpit.lineage_classify_position` (core.py lines 99-116): for
every cataloged lineage whose reference panel contains the record
position, run the genotype interpreter over the record samples and store
the informative outcomes in that lineage projection. -/
def lineage_classify_position (lineages : List Lineage) (refSnps : Lineage → SnpMap)
    (samp₀ : Lineage → SnpMap) (record : VcfRecord) : Except PyError (Lineage → SnpMap) :=
  lineages.foldlM
    (fun samp L =>
      if (snpFind (refSnps L) record.pos).isSome then do
        let m ← process_samples record record.samples (samp L)
        Except.ok (dictUpdate samp L m)
      else Except.ok samp)
    samp₀

/-- Embeds `snpit.classify_vcf` (core.py lines 80-97): reset the
projections from the reference genome, then fold over the VCF records,
processing a record exactly when `self.ignore_filter or record.FILTER`
holds. -/
def classify_vcf (genome : Nat → String) (ignore_filter : Bool) (lineages : List Lineage)
    (refSnps : Lineage → SnpMap) (records : List VcfRecord) :
    Except PyError (Lineage → SnpMap) :=
  records.foldlM
    (fun samp record =>
      if ignore_filter || record.filter then
        lineage_classify_position lineages refSnps samp record
      else Except.ok samp)
    (_reset_lineage_snps genome lineages refSnps)

/-! Concrete catalogs, projections and records used to instantiate the
theorems below on closed inputs. -/

/-- A generic Lineage 1 catalog row. -/
def exL1 : Lineage := ⟨"lin1", "M. tuberculosis", "Lineage 1", ""⟩

/-- A Lineage 4 catalog row with no sublineage distinction. -/
def exL4 : Lineage := ⟨"lin4", "M. tuberculosis", "Lineage 4", ""⟩

/-- A Lineage 4 catalog row carrying a sublineage. -/
def exL41 : Lineage := ⟨"lin4.9", "M. tuberculosis", "Lineage 4", "Sublineage 7"⟩

/-- A catalog row whose panel file is missing, so its panel stays empty. -/
def exL0 : Lineage := ⟨"beijing", "M. tuberculosis", "Lineage 2", ""⟩

/-- One-lineage state whose single panel matches the sample on one of two
positions: the percentage lands exactly on the 50 threshold. -/
def exStBoundary : SnpitState :=
  { threshold := 50
    lineages := [exL1]
    reference_snps := fun L => if L.name = "lin1" then [(1, "A"), (2, "C")] else []
    sample_snps := fun L => if L.name = "lin1" then [(1, "A"), (2, "T")] else [] }

/-- One-lineage state with an empty diagnostic panel. -/
def exStEmptyPanel : SnpitState :=
  { threshold := 90
    lineages := [exL0]
    reference_snps := fun _ => []
    sample_snps := fun _ => [] }

/-- One-lineage state whose only lineage is Lineage 4 without sublineage
and matches the sample perfectly. -/
def exStSingleton : SnpitState :=
  { threshold := 90
    lineages := [exL4]
    reference_snps := fun L => if L.name = "lin4" then [(7, "G")] else []
    sample_snps := fun L => if L.name = "lin4" then [(7, "G")] else [] }

/-- Two Lineage 4 rows: the sublineage-free one matches 100 percent, the
sublineage-bearing one 75 percent, both above the 50 threshold. -/
def exStLineage4 : SnpitState :=
  { threshold := 50
    lineages := [exL4, exL41]
    reference_snps := fun L =>
      if L.name = "lin4" then [(1, "A")]
      else if L.name = "lin4.9" then [(1, "A"), (2, "C"), (3, "G"), (4, "T")]
      else []
    sample_snps := fun L =>
      if L.name = "lin4" then [(1, "A")]
      else if L.name = "lin4.9" then [(1, "A"), (2, "C"), (3, "G"), (4, "A")]
      else [] }

/-- A generic Lineage 2 catalog row. -/
def exL2 : Lineage := ⟨"lin2", "M. tuberculosis", "Lineage 2", ""⟩

/-- The end-to-end scenario of spec section 8: lin1 matches the sample at
50 percent, lin2 at 100 percent, threshold 80, so lin2 yields a confident
call. -/
def exStEndToEnd : SnpitState :=
  { threshold := 80
    lineages := [exL1, exL2]
    reference_snps := fun L =>
      if L.name = "lin1" then [(100, "A"), (200, "C")]
      else if L.name = "lin2" then [(100, "A"), (200, "G")]
      else []
    sample_snps := fun L =>
      if L.name = "lin1" then [(100, "A"), (200, "G")]
      else if L.name = "lin2" then [(100, "A"), (200, "G")]
      else [] }

/-- A record with two alternate alleles. -/
def exRecTwoAlts : VcfRecord := { pos := 2, filter := true, alt := ["A", "C"], samples := [] }

/-- A record with a single alternate allele, genotyped with the
out-of-range allele index 2. -/
def exRecOneAlt : VcfRecord :=
  { pos := 1, filter := true, alt := ["A"], samples := [Genotype.alternate 2] }

/-- A one-lineage reference panel keyed by catalog name, used to
instantiate the projection coverage theorem. -/
def exRefSnps : Lineage → SnpMap := fun L => if L.name = "lin1" then [(5, "A")] else []

/-- The coverage invariant of spec section 4.2: every position of the
reference panel of every cataloged lineage has an entry in the sample
projection. -/
def ProjInv (lineages : List Lineage) (refSnps samp : Lineage → SnpMap) : Prop :=
  ∀ L ∈ lineages, ∀ q, (snpFind (refSnps L) q).isSome = true →
    (snpFind (samp L) q).isSome = true

/-! Helper lemmas. -/

lemma countShared_le (refm samp : SnpMap) :
    ∀ (l : List (Nat × String)) (s r : Nat),
      countShared refm samp l = Except.ok (s, r) → s ≤ r := by
  intro l
  induction l with
  | nil =>
    intro s r h
    simp only [countShared, Except.ok.injEq, Prod.mk.injEq] at h
    omega
  | cons a rest ih =>
    intro s r h
    obtain ⟨j, b⟩ := a
    simp only [countShared] at h
    cases hrb : snpFind refm j with
    | none => rw [hrb] at h; simp [Except.bind, bind] at h
    | some rb =>
      rw [hrb] at h
      cases hsb : snpFind samp j with
      | none => rw [hsb] at h; simp [Except.bind, bind] at h
      | some sb =>
        rw [hsb] at h
        cases hrec : countShared refm samp rest with
        | error e => rw [hrec] at h; simp [Except.bind, bind] at h
        | ok sr =>
          rw [hrec] at h
          obtain ⟨s0, r0⟩ := sr
          have hle := ih s0 r0 hrec
          simp [Except.bind, bind, pure, Except.pure] at h
          split at h <;> omega

/-! The claims. -/

/-- C7: whenever the percentage computation of `determine_lineage`
succeeds on a lineage panel (so the panel is nonempty and the sample
projection covers it), the resulting percentage `100 * shared / total`
lies between 0 and 100, because `shared` counts a subset of the `total`
panel positions. -/
theorem lineagePercentage_bounds (refm samp : SnpMap) (p : ℚ)
    (h : lineagePercentage refm samp = Except.ok p) : 0 ≤ p ∧ p ≤ 100 := by
  unfold lineagePercentage at h
  cases hcs : countShared refm samp refm with
  | error e => rw [hcs] at h; simp [Except.bind, bind] at h
  | ok sr =>
    rw [hcs] at h
    obtain ⟨s, r⟩ := sr
    have hle : s ≤ r := countShared_le refm samp refm s r hcs
    simp only [Except.bind, bind] at h
    by_cases hz : r = 0
    · simp [hz] at h
    · simp [hz] at h
      have hrpos : (0:ℚ) < r := by
        have : 0 < r := Nat.pos_of_ne_zero hz
        exact_mod_cast this
      constructor
      · rw [← h]; positivity
      · rw [← h]
        have hsr : (s:ℚ) ≤ (r:ℚ) := by exact_mod_cast hle
        rw [div_mul_eq_mul_div, div_le_iff₀ hrpos]
        nlinarith

/-- Witness for C7 on a two-position panel matching the sample at exactly
one position, giving 50 percent. -/
theorem lineagePercentage_bounds_witness : 0 ≤ (50:ℚ) ∧ (50:ℚ) ≤ 100 :=
  lineagePercentage_bounds [(1, "A"), (2, "C")] [(1, "A"), (2, "T")] 50
    (by simp [lineagePercentage, countShared, snpFind, Except.bind, bind, pure, Except.pure]
        norm_num)

/-- C4 (code bug): `determine_lineage` has no guard for a lineage with an
empty diagnostic panel; on a catalog containing one, the percentage loop
divides by zero instead of excluding the lineage, so classification fails
with ZeroDivisionError rather than completing. -/
theorem determine_lineage_empty_panel_division_error :
    determine_lineage exStEmptyPanel = Except.error PyError.zeroDivisionError := by
  simp [determine_lineage, determine_percentages, exStEmptyPanel, exL0, List.foldlM_cons,
    List.foldlM_nil, pctInsert, lineagePercentage, countShared, Except.map, Except.bind, bind,
    pure, Except.pure]

/-- C1: after ranking by percentage descending, `determine_lineage`
returns the unknown tuple (modelled as `none`) exactly when the top-ranked
percentage does not strictly exceed the threshold; when it does exceed it,
classification does not return the unknown tuple but instead crashes with
the TypeError of core.py line 253, so the equivalence holds of the code. -/
theorem determine_lineage_unknown_iff_threshold
    (st : SnpitState) (pcts : List (Lineage × ℚ)) (top : Lineage × ℚ)
    (rest : List (Lineage × ℚ))
    (hp : determine_percentages st.lineages st.reference_snps st.sample_snps = Except.ok pcts)
    (hs : sortResults pcts = top :: rest) :
    (determine_lineage st = Except.ok none ↔ ¬ top.2 > st.threshold)
    ∧ (top.2 > st.threshold → determine_lineage st = Except.error PyError.typeError) := by
  have hdl : determine_lineage st = pickLineage st.threshold (top :: rest) := by
    unfold determine_lineage
    rw [hp]
    simp only [Except.bind, bind]
    rw [hs]
  obtain ⟨idName, idPct⟩ := top
  rw [hdl]
  simp only [pickLineage]
  by_cases h : idPct > st.threshold
  · rw [if_pos h]
    exact ⟨⟨fun hc => Except.noConfusion hc, fun hnc => absurd h hnc⟩, fun _ => rfl⟩
  · rw [if_neg h]
    exact ⟨⟨fun _ => h, fun _ => rfl⟩, fun hc => absurd hc h⟩

/-- Witness for C1 at the threshold boundary: a top percentage of exactly
50 against a threshold of 50 yields the unknown result. -/
theorem determine_lineage_unknown_iff_threshold_witness :
    determine_lineage exStBoundary = Except.ok none :=
  ((determine_lineage_unknown_iff_threshold exStBoundary [(exL1, 50)] (exL1, 50) []
      (by simp [determine_percentages, exStBoundary, exL1, List.foldlM_cons, List.foldlM_nil,
            pctInsert, lineagePercentage, countShared, snpFind, Except.map, Except.bind, bind,
            pure, Except.pure]
          norm_num)
      (by simp [sortResults, insertDesc])).1).mpr
    (by norm_num [exStBoundary])

/-- C10 counterexample: on the one-row Lineage 4 catalog that clears the
threshold, classification fails with the TypeError of core.py line 253,
which fires before `self.results[1]` could ever be read, and that failure
is not the out-of-range IndexError the claim asserts. -/
theorem determine_lineage_singleton_not_index_error_cex :
    determine_lineage exStSingleton = Except.error PyError.typeError
      ∧ PyError.typeError ≠ PyError.indexError := by
  constructor
  · simp [determine_lineage, determine_percentages, exStSingleton, exL4, List.foldlM_cons,
      List.foldlM_nil, pctInsert, lineagePercentage, countShared, snpFind, Except.map,
      Except.bind, bind, pure, Except.pure, sortResults, insertDesc, pickLineage]
    norm_num
  · decide

/-- C10 (amended): when the single cataloged lineage clears the threshold
and is Lineage 4 with empty sublineage, classification fails before
`self.results[1]` is ever read: the subscript
`self.lineages[identified_lineage_name]` of core.py line 253 indexes a
plain list with a Lineage record and raises TypeError, so a one-lineage
catalog fails with a type error, not with an out-of-range access, and the
top candidate is not returned. -/
theorem determine_lineage_singleton_results_typeerror
    (st : SnpitState) (c : Lineage) (p : ℚ)
    (hp : determine_percentages st.lineages st.reference_snps st.sample_snps
        = Except.ok [(c, p)])
    (ht : p > st.threshold) (_h4 : c.lineage = "Lineage 4") (_hs : c.sublineage = "") :
    determine_lineage st = Except.error PyError.typeError := by
  unfold determine_lineage
  rw [hp]
  simp only [Except.bind, bind]
  simp [sortResults, insertDesc, pickLineage, ht]

/-- Witness for the amended C10: a one-row Lineage 4 catalog matching the
sample at 100 percent against a threshold of 90 crashes with TypeError. -/
theorem determine_lineage_singleton_results_typeerror_witness :
    determine_lineage exStSingleton = Except.error PyError.typeError :=
  determine_lineage_singleton_results_typeerror exStSingleton exL4 100
    (by simp [determine_percentages, exStSingleton, exL4, List.foldlM_cons, List.foldlM_nil,
          pctInsert, lineagePercentage, countShared, snpFind, Except.map, Except.bind, bind,
          pure, Except.pure])
    (by norm_num [exStSingleton]) (by simp [exL4]) (by simp [exL4])

/-- C2 (code bug): the Lineage 4 replacement rule the spec and the code
comments on core.py lines 251-261 describe is unreachable. Here both rows
are Lineage 4, the sublineage-free one ranked first at 100 percent and the
sublineage-bearing one second at 75 percent over a 50 threshold, so the
rule should inspect the second rank and replace the candidate; instead the
subscript `self.lineages[identified_lineage_name]["lineage"]` on line 253
raises TypeError before the second-ranked lineage is ever inspected. -/
theorem determine_lineage_lineage4_typeerror :
    determine_percentages exStLineage4.lineages exStLineage4.reference_snps
        exStLineage4.sample_snps = Except.ok [(exL4, 100), (exL41, 75)]
      ∧ determine_lineage exStLineage4 = Except.error PyError.typeError := by
  constructor
  · simp [determine_percentages, exStLineage4, exL4, exL41, List.foldlM_cons, List.foldlM_nil,
      pctInsert, Lineage.pyEq, lineagePercentage, countShared, snpFind, Except.map,
      Except.bind, bind, pure, Except.pure]
    norm_num
  · simp [determine_lineage, determine_percentages, exStLineage4, exL4, exL41,
      List.foldlM_cons, List.foldlM_nil, pctInsert, Lineage.pyEq, lineagePercentage,
      countShared, snpFind, Except.map, Except.bind, bind, pure, Except.pure, sortResults,
      insertDesc, pickLineage]
    norm_num

/-- C3 (code bug): no confident call ever emits a tuple. In the spec
end-to-end scenario lin1 scores 50 and lin2 scores 100 over threshold 80,
so the code should emit the lin2 tuple (core.py lines 270-275); instead
line 253 raises TypeError first, so the return carrying the final
candidate fields is unreachable (and its percentage variable is in any
case never reassigned on the replacement path, line 268 vs 274). -/
theorem determine_lineage_confident_call_typeerror :
    determine_percentages exStEndToEnd.lineages exStEndToEnd.reference_snps
        exStEndToEnd.sample_snps = Except.ok [(exL1, 50), (exL2, 100)]
      ∧ determine_lineage exStEndToEnd = Except.error PyError.typeError := by
  constructor
  · simp [determine_percentages, exStEndToEnd, exL1, exL2, List.foldlM_cons, List.foldlM_nil,
      pctInsert, Lineage.pyEq, lineagePercentage, countShared, snpFind, Except.map,
      Except.bind, bind, pure, Except.pure]
    norm_num
  · simp [determine_lineage, determine_percentages, exStEndToEnd, exL1, exL2,
      List.foldlM_cons, List.foldlM_nil, pctInsert, Lineage.pyEq, lineagePercentage,
      countShared, snpFind, Except.map, Except.bind, bind, pure, Except.pure, sortResults,
      insertDesc, pickLineage]
    norm_num

/-- Evaluation of the Python list subscript at a nonnegative index. -/
lemma pyListGet_nonneg (l : List String) (i : Int) (h : 0 ≤ i) :
    pyListGet l i
      = if h2 : i.toNat < l.length then Except.ok (l.get ⟨i.toNat, h2⟩)
        else Except.error PyError.indexError := by
  unfold pyListGet
  have hni : ¬ i < 0 := by omega
  simp only [hni, if_false]
  by_cases h2 : i.toNat < l.length
  · rw [dif_pos ⟨h, h2⟩, dif_pos h2]
  · rw [dif_neg (by tauto), dif_neg h2]

/-- C5: the genotype interpreter returns no overwrite for reference and
heterozygous calls, the placeholder "-" for null calls, and the k-th entry
(1-based) of the record alternate-allele list for an alternate call with
in-range index k. -/
theorem get_sample_genotyped_variant_cases (record : VcfRecord) :
    get_sample_genotyped_variant Genotype.reference record = Except.ok none
    ∧ get_sample_genotyped_variant Genotype.heterozygous record = Except.ok none
    ∧ get_sample_genotyped_variant Genotype.null record = Except.ok (some "-")
    ∧ ∀ (k : Nat) (v : String), 1 ≤ k → record.alt.get? (k - 1) = some v →
        get_sample_genotyped_variant (Genotype.alternate k) record = Except.ok (some v) := by
  refine ⟨rfl, rfl, rfl, ?_⟩
  intro k v hk hv
  have hlt : k - 1 < record.alt.length := (List.get?_eq_some.mp hv).1
  simp only [get_sample_genotyped_variant]
  rw [pyListGet_nonneg record.alt ((k:Int) - 1) (by omega)]
  have htn : ((k:Int) - 1).toNat = k - 1 := by omega
  rw [dif_pos (by omega : ((k:Int) - 1).toNat < record.alt.length)]
  have hg : record.alt[k - 1] = v := by
    have h2 := (List.get?_eq_some.mp hv).2
    simpa [List.get_eq_getElem] using h2
  simp [Except.map, htn, hg]

/-- Witness for C5: the spec scenario "1/1" with alternates ["A", "C"]
resolving to base "A". -/
theorem get_sample_genotyped_variant_cases_witness :
    get_sample_genotyped_variant (Genotype.alternate 1) exRecTwoAlts = Except.ok (some "A") :=
  (get_sample_genotyped_variant_cases exRecTwoAlts).2.2.2 1 "A" (by decide) (by decide)

/-- C6 counterexample: on a record with a single alternate allele, the
allele index 2 makes the interpreter fail with the generic Python
IndexError of the bare list subscript, which is not the distinct
InvalidAlleleIndex error the claim demands (only the spec-modelled
interpreter produces that one). -/
theorem get_sample_genotyped_variant_error_identity_cex :
    get_sample_genotyped_variant (Genotype.alternate 2) exRecOneAlt
        = Except.error PyError.indexError
      ∧ getSampleGenotypedVariantSpec (Genotype.alternate 2) exRecOneAlt
        = Except.error PyError.invalidAlleleIndex
      ∧ PyError.indexError ≠ PyError.invalidAlleleIndex := by
  refine ⟨?_, rfl, by decide⟩
  rw [show get_sample_genotyped_variant (Genotype.alternate 2) exRecOneAlt
      = (pyListGet exRecOneAlt.alt 1).map (fun v => some v) from rfl]
  rw [pyListGet_nonneg exRecOneAlt.alt 1 (by omega)]
  rw [dif_neg (by simp [exRecOneAlt])]
  rfl

/-- C6 (amended): an alternate call whose 1-based allele index exceeds the
length of the alternate-allele list makes the interpreter fail with the
generic IndexError of the bare Python list subscript; the code defines no
distinct InvalidAlleleIndex error. -/
theorem get_sample_genotyped_variant_out_of_range (record : VcfRecord) (k : Nat)
    (hk : 1 ≤ k) (hout : record.alt.length < k) :
    get_sample_genotyped_variant (Genotype.alternate k) record
      = Except.error PyError.indexError := by
  simp only [get_sample_genotyped_variant]
  rw [pyListGet_nonneg record.alt ((k:Int) - 1) (by omega)]
  rw [dif_neg (by omega : ¬ ((k:Int) - 1).toNat < record.alt.length)]
  rfl

/-- Witness for the amended C6 at allele index 2 on a one-allele record. -/
theorem get_sample_genotyped_variant_out_of_range_witness :
    get_sample_genotyped_variant (Genotype.alternate 2) exRecOneAlt
      = Except.error PyError.indexError :=
  get_sample_genotyped_variant_out_of_range exRecOneAlt 2 (by decide) (by decide)

/-- Splitting an Except fold over an appended list. -/
lemma foldlM_append_except {σ τ ε : Type} (f : σ → τ → Except ε σ) (l₁ l₂ : List τ) (s : σ) :
    (l₁ ++ l₂).foldlM f s = (l₁.foldlM f s).bind (fun s2 => l₂.foldlM f s2) := by
  induction l₁ generalizing s with
  | nil => simp [List.foldlM_nil, Except.bind, bind, pure, Except.pure]
  | cons a l ih =>
    simp only [List.cons_append, List.foldlM_cons]
    cases f s a with
    | error e => simp [Except.bind, bind]
    | ok s1 => simp [Except.bind, bind, ih]

/-- C8: during VCF-based projection construction, an incoming record is
processed (and can contribute overwrites) exactly when
`self.ignore_filter or record.FILTER` holds; a record failing that
predicate leaves every lineage projection unchanged. -/
theorem classify_vcf_filter_gate (genome : Nat → String) (ignore_filter : Bool)
    (lineages : List Lineage) (refSnps : Lineage → SnpMap)
    (records : List VcfRecord) (record : VcfRecord) :
    classify_vcf genome ignore_filter lineages refSnps (records ++ [record])
      = if ignore_filter || record.filter then
          (classify_vcf genome ignore_filter lineages refSnps records).bind
            (fun samp => lineage_classify_position lineages refSnps samp record)
        else classify_vcf genome ignore_filter lineages refSnps records := by
  unfold classify_vcf
  rw [foldlM_append_except]
  by_cases h : (ignore_filter || record.filter) = true
  · rw [if_pos h]
    congr 1
    funext samp
    simp only [List.foldlM_cons, List.foldlM_nil, h, if_true]
    cases lineage_classify_position lineages refSnps samp record with
    | error e => simp [Except.bind, bind]
    | ok s1 => simp [Except.bind, bind, pure, Except.pure]
  · rw [if_neg h]
    cases records.foldlM
        (fun samp record =>
          if ignore_filter || record.filter then
            lineage_classify_position lineages refSnps samp record
          else Except.ok samp)
        (_reset_lineage_snps genome lineages refSnps) with
    | error e => simp [Except.bind, bind]
    | ok s1 =>
      simp only [Except.bind, bind, List.foldlM_cons, List.foldlM_nil]
      rw [if_neg h]
      rfl

/-- Python equality of a Lineage record with itself. -/
lemma pyEq_refl (L : Lineage) : Lineage.pyEq L L = true := by
  simp [Lineage.pyEq]

/-- Assigning a key makes it present. -/
lemma snpFind_insert_same (m : SnpMap) (p : Nat) (v : String) :
    (snpFind (snpInsert m p v) p).isSome = true := by
  induction m with
  | nil => simp [snpInsert, snpFind]
  | cons a t ih =>
    obtain ⟨q, w⟩ := a
    by_cases hqp : q = p
    · subst hqp; simp [snpInsert, snpFind]
    · simp [snpInsert, snpFind, hqp, ih]

/-- Assigning a key keeps every present key present. -/
lemma snpFind_insert_mono (m : SnpMap) (p q : Nat) (v : String)
    (h : (snpFind m q).isSome = true) :
    (snpFind (snpInsert m p v) q).isSome = true := by
  induction m with
  | nil => simp [snpFind] at h
  | cons a t ih =>
    obtain ⟨r, w⟩ := a
    by_cases hrp : r = p
    · subst hrp
      by_cases hrq : r = q
      · subst hrq; simp [snpInsert, snpFind]
      · simp only [snpFind, if_neg hrq] at h
        simp [snpInsert, snpFind, hrq, h]
    · by_cases hrq : r = q
      · subst hrq; simp [snpInsert, snpFind, hrp]
      · simp only [snpFind, if_neg hrq] at h
        simp [snpInsert, snpFind, hrp, hrq, ih h]

/-- A listed entry makes its key present. -/
lemma snpFind_isSome_of_mem (m : SnpMap) (q : Nat) (w : String) (h : (q, w) ∈ m) :
    (snpFind m q).isSome = true := by
  induction m with
  | nil => cases h
  | cons a t ih =>
    obtain ⟨r, u⟩ := a
    rcases List.mem_cons.mp h with heq | hmem
    · cases heq; simp [snpFind]
    · by_cases hrq : r = q
      · simp [snpFind, hrq]
      · simp [snpFind, hrq, ih hmem]

/-- A present key has a listed entry. -/
lemma snpFind_mem_of_isSome (m : SnpMap) (q : Nat) (h : (snpFind m q).isSome = true) :
    ∃ w, (q, w) ∈ m := by
  induction m with
  | nil => simp [snpFind] at h
  | cons a t ih =>
    obtain ⟨r, u⟩ := a
    by_cases hrq : r = q
    · subst hrq; exact ⟨u, List.mem_cons_self _ _⟩
    · simp only [snpFind, if_neg hrq] at h
      obtain ⟨w, hw⟩ := ih h
      exact ⟨w, List.mem_cons_of_mem _ hw⟩

/-- Keys surviving the guarded insert fold of `buildFastaProjection`. -/
lemma buildFasta_aux (panel : SnpMap) (seqf : Nat → String) :
    ∀ (l : List (Nat × String)) (m : SnpMap) (q : Nat),
      (∀ pr ∈ l, (snpFind panel pr.1).isSome = true) →
      ((snpFind m q).isSome = true ∨ ∃ w, (q, w) ∈ l) →
      (snpFind
          (l.foldl
            (fun m2 pr =>
              if (snpFind panel pr.1).isSome then snpInsert m2 pr.1 (seqf (pr.1 - 1)) else m2)
            m)
          q).isSome = true := by
  intro l
  induction l with
  | nil =>
    intro m q _ h
    rcases h with h | ⟨w, hw⟩
    · exact h
    · cases hw
  | cons a t ih =>
    intro m q hl h
    simp only [List.foldl_cons]
    apply ih _ _ (fun pr hpr => hl pr (List.mem_cons_of_mem a hpr))
    rcases h with h | ⟨w, hw⟩
    · left
      rw [if_pos (hl a (List.mem_cons_self a t))]
      exact snpFind_insert_mono m a.1 q _ h
    · rcases List.mem_cons.mp hw with heq | hmem
      · left
        cases heq
        rw [if_pos (hl (q, w) (List.mem_cons_self _ _))]
        exact snpFind_insert_same m q _
      · exact Or.inr ⟨w, hmem⟩

/-- Keys surviving the insert fold of `buildRefProjection`. -/
lemma buildRef_aux (seqf : Nat → String) :
    ∀ (l : List (Nat × String)) (m : SnpMap) (q : Nat),
      ((snpFind m q).isSome = true ∨ ∃ w, (q, w) ∈ l) →
      (snpFind (l.foldl (fun m2 pr => snpInsert m2 pr.1 (seqf (pr.1 - 1))) m) q).isSome
        = true := by
  intro l
  induction l with
  | nil =>
    intro m q h
    rcases h with h | ⟨w, hw⟩
    · exact h
    · cases hw
  | cons a t ih =>
    intro m q h
    simp only [List.foldl_cons]
    apply ih
    rcases h with h | ⟨w, hw⟩
    · exact Or.inl (snpFind_insert_mono m a.1 q _ h)
    · rcases List.mem_cons.mp hw with heq | hmem
      · obtain ⟨p1, w1⟩ := a
        cases heq
        exact Or.inl (snpFind_insert_same m q _)
      · exact Or.inr ⟨w, hmem⟩

/-- Every panel key is a key of the seeded reference projection. -/
lemma buildRefProjection_keys (panel : SnpMap) (seqf : Nat → String) (q : Nat)
    (h : (snpFind panel q).isSome = true) :
    (snpFind (buildRefProjection panel seqf) q).isSome = true := by
  obtain ⟨w, hw⟩ := snpFind_mem_of_isSome panel q h
  exact buildRef_aux seqf panel [] q (Or.inr ⟨w, hw⟩)

/-- Every panel key is a key of the fasta projection. -/
lemma buildFastaProjection_keys (panel : SnpMap) (seqf : Nat → String) (q : Nat)
    (h : (snpFind panel q).isSome = true) :
    (snpFind (buildFastaProjection panel seqf) q).isSome = true := by
  obtain ⟨w, hw⟩ := snpFind_mem_of_isSome panel q h
  exact buildFasta_aux panel seqf panel [] q
    (fun pr hpr => snpFind_isSome_of_mem panel pr.1 pr.2 hpr)
    (Or.inr ⟨w, hw⟩)

/-- A fold of per-lineage dictionary assignments leaves a record missing
from the key list untouched. -/
lemma foldl_dictUpdate_miss (g : Lineage → SnpMap) :
    ∀ (ls : List Lineage) (base : Lineage → SnpMap) (L : Lineage),
      (∀ K ∈ ls, Lineage.pyEq L K = false) →
      (ls.foldl (fun samp K => dictUpdate samp K (g K)) base) L = base L := by
  intro ls
  induction ls with
  | nil => intro base L _; rfl
  | cons a t ih =>
    intro base L h
    simp only [List.foldl_cons]
    rw [ih _ L (fun K hK => h K (List.mem_cons_of_mem a hK))]
    simp [dictUpdate, h a (List.mem_cons_self a t)]

/-- A fold of per-lineage dictionary assignments sends a listed record to
the assigned value of one of its Python-equal key occurrences. -/
lemma foldl_dictUpdate_hit (g : Lineage → SnpMap) :
    ∀ (ls : List Lineage) (base : Lineage → SnpMap) (L : Lineage),
      (∃ K ∈ ls, Lineage.pyEq L K = true) →
      ∃ K ∈ ls, Lineage.pyEq L K = true ∧
        (ls.foldl (fun samp K2 => dictUpdate samp K2 (g K2)) base) L = g K := by
  intro ls
  induction ls with
  | nil =>
    intro base L h
    exact absurd h (by simp)
  | cons a t ih =>
    intro base L h
    by_cases ht : ∃ K ∈ t, Lineage.pyEq L K = true
    · obtain ⟨K, hK, hpe, hres⟩ := ih (dictUpdate base a (g a)) L ht
      refine ⟨K, List.mem_cons_of_mem a hK, hpe, ?_⟩
      simpa [List.foldl_cons] using hres
    · have hmiss : ∀ K ∈ t, Lineage.pyEq L K = false := by
        intro K hK
        by_contra hc
        exact ht ⟨K, hK, by simpa using hc⟩
      have ha : Lineage.pyEq L a = true := by
        rcases h with ⟨K, hK, hpe⟩
        rcases List.mem_cons.mp hK with heq | hKt
        · rw [← heq]; exact hpe
        · rw [hmiss K hKt] at hpe; cases hpe
      refine ⟨a, List.mem_cons_self a t, ha, ?_⟩
      simp only [List.foldl_cons]
      rw [foldl_dictUpdate_miss g t _ L hmiss]
      simp [dictUpdate, ha]

/-- An invariant preserved by every step of an Except fold holds for its
successful result. -/
lemma foldlM_inv {σ τ : Type} (Inv : σ → Prop) (f : σ → τ → Except PyError σ) :
    ∀ (l : List τ),
      (∀ s t, t ∈ l → Inv s → ∀ s2, f s t = Except.ok s2 → Inv s2) →
      ∀ s₀ s2, Inv s₀ → l.foldlM f s₀ = Except.ok s2 → Inv s2 := by
  intro l
  induction l with
  | nil =>
    intro _ s₀ s2 hInv h
    simp only [List.foldlM_nil, pure, Except.pure, Except.ok.injEq] at h
    exact h ▸ hInv
  | cons a t ih =>
    intro hstep s₀ s2 hInv h
    simp only [List.foldlM_cons] at h
    cases hfa : f s₀ a with
    | error e => rw [hfa] at h; simp [Except.bind, bind] at h
    | ok s1 =>
      rw [hfa] at h
      simp only [Except.bind, bind] at h
      exact ih (fun s t2 ht2 => hstep s t2 (List.mem_cons_of_mem a ht2)) s1 s2
        (hstep s₀ a (List.mem_cons_self a t) hInv s1 hfa) h

/-- The per-sample overwrite loop only adds keys. -/
lemma process_samples_mono (record : VcfRecord) :
    ∀ (gs : List Genotype) (m m2 : SnpMap),
      process_samples record gs m = Except.ok m2 →
      ∀ q, (snpFind m q).isSome = true → (snpFind m2 q).isSome = true := by
  intro gs
  induction gs with
  | nil =>
    intro m m2 h q hq
    simp only [process_samples, Except.ok.injEq] at h
    exact h ▸ hq
  | cons g rest ih =>
    intro m m2 h q hq
    simp only [process_samples] at h
    cases hv : get_sample_genotyped_variant g record with
    | error e => rw [hv] at h; simp [Except.bind, bind] at h
    | ok variant =>
      rw [hv] at h
      simp only [Except.bind, bind] at h
      cases variant with
      | none => exact ih m m2 h q hq
      | some v => exact ih _ m2 h q (snpFind_insert_mono m record.pos q v hq)

/-- Processing one record preserves panel coverage of the projections. -/
lemma lineage_classify_position_inv (lineages : List Lineage) (refSnps : Lineage → SnpMap)
    (href : ∀ L ∈ lineages, ∀ K ∈ lineages, Lineage.pyEq L K = true → refSnps K = refSnps L)
    (samp samp2 : Lineage → SnpMap) (record : VcfRecord)
    (hInv : ProjInv lineages refSnps samp)
    (h : lineage_classify_position lineages refSnps samp record = Except.ok samp2) :
    ProjInv lineages refSnps samp2 := by
  unfold lineage_classify_position at h
  refine foldlM_inv (ProjInv lineages refSnps) _ lineages ?_ samp samp2 hInv h
  intro s K hK hs s2 hstep
  by_cases hc : (snpFind (refSnps K) record.pos).isSome = true
  · rw [if_pos hc] at hstep
    cases hps : process_samples record record.samples (s K) with
    | error e => rw [hps] at hstep; simp [Except.bind, bind] at hstep
    | ok m =>
      rw [hps] at hstep
      simp only [Except.bind, bind, pure, Except.pure, Except.ok.injEq] at hstep
      intro L hL q hq
      rw [← hstep]
      by_cases hpe : Lineage.pyEq L K = true
      · have hrq : (snpFind (refSnps K) q).isSome = true := by
          rw [href L hL K hK hpe]
          exact hq
        have h1 : (snpFind (s K) q).isSome = true := hs K hK q hrq
        have h2 := process_samples_mono record record.samples (s K) m hps q h1
        simpa [dictUpdate, hpe] using h2
      · have h1 : (snpFind (s L) q).isSome = true := hs L hL q hq
        simpa [dictUpdate, hpe] using h1
  · rw [if_neg hc] at hstep
    simp only [Except.ok.injEq] at hstep
    exact hstep ▸ hs

/-- The reset projections cover every panel. -/
lemma reset_lineage_snps_inv (genome : Nat → String) (lineages : List Lineage)
    (refSnps : Lineage → SnpMap)
    (href : ∀ L ∈ lineages, ∀ K ∈ lineages, Lineage.pyEq L K = true → refSnps K = refSnps L) :
    ProjInv lineages refSnps (_reset_lineage_snps genome lineages refSnps) := by
  intro L hL q hq
  unfold _reset_lineage_snps
  obtain ⟨K, hK, hpe, hres⟩ :=
    foldl_dictUpdate_hit (fun K => buildRefProjection (refSnps K) genome) lineages
      (fun _ => []) L ⟨L, hL, pyEq_refl L⟩
  rw [hres]
  apply buildRefProjection_keys
  rw [href L hL K hK hpe]
  exact hq

/-- C9: after Sample Projection construction by either path (from a fasta
sequence or from VCF records), every lineage projection contains an entry
for every position of that lineage reference panel. The hypothesis states
that Python-equal catalog rows carry the same panel, which holds in the
source because a panel is read from the file named by the row name. -/
theorem projection_covers_reference_panel
    (genome fseq : Nat → String) (ignore_filter : Bool) (records : List VcfRecord)
    (lineages : List Lineage) (refSnps : Lineage → SnpMap)
    (href : ∀ L ∈ lineages, ∀ K ∈ lineages, Lineage.pyEq L K = true → refSnps K = refSnps L) :
    (∀ L ∈ lineages, ∀ q, (snpFind (refSnps L) q).isSome = true →
        (snpFind (load_fasta genome fseq lineages refSnps L) q).isSome = true)
    ∧ (∀ samp, classify_vcf genome ignore_filter lineages refSnps records = Except.ok samp →
        ∀ L ∈ lineages, ∀ q, (snpFind (refSnps L) q).isSome = true →
          (snpFind (samp L) q).isSome = true) := by
  constructor
  · intro L hL q hq
    simp only [load_fasta]
    obtain ⟨K, hK, hpe, hres⟩ :=
      foldl_dictUpdate_hit (fun K => buildFastaProjection (refSnps K) fseq) lineages
        (fun _ => []) L ⟨L, hL, pyEq_refl L⟩
    rw [hres]
    apply buildFastaProjection_keys
    rw [href L hL K hK hpe]
    exact hq
  · intro samp hsamp
    unfold classify_vcf at hsamp
    refine foldlM_inv (ProjInv lineages refSnps) _ records ?_ _ samp
      (reset_lineage_snps_inv genome lineages refSnps href) hsamp
    intro s r _ hs s2 hstep
    by_cases hfr : (ignore_filter || r.filter) = true
    · rw [if_pos hfr] at hstep
      exact lineage_classify_position_inv lineages refSnps href s s2 r hs hstep
    · rw [if_neg hfr] at hstep
      simp only [Except.ok.injEq] at hstep
      exact hstep ▸ hs

/-- Witness for C9: the one-row catalog with panel position 5, projected
from a constant fasta sequence, has an entry at position 5. -/
theorem projection_covers_reference_panel_witness :
    (snpFind (load_fasta (fun _ => "A") (fun _ => "C") [exL1] exRefSnps exL1) 5).isSome
      = true :=
  (projection_covers_reference_panel (fun _ => "A") (fun _ => "C") true [] [exL1] exRefSnps
      (by decide)).1
    exL1 (by decide) 5 (by decide)
